import Mathlib

/-!
Verification of the stock portfolio tracker (`src/main.py`).

The program is a single-session CLI: it reads ticker/quantity pairs from the
console, looks prices up in a fixed table, computes each holding's value and
portfolio weight, prints a report and optionally writes it to a file.

Embedding conventions:
* Python `float` literals such as `875.50` are modelled as exact rationals
  (`ℚ`); Python `int` is modelled as `ℤ`.
* The interactive loops of `get_user_portfolio` are modelled as a state
  machine (`CState`, `collectorStep`) driven by the list of console input
  lines; running out of input lines models an uncaught `EOFError`
  (result `none`).
* The dictionary `STOCK_PRICES` is modelled as an association list with
  `List.lookup`.
* The file write in `save_results_to_file` is modelled by an
  `Except String Unit` parameter describing the outcome of the `open`/`write`
  calls (`.error e` models an `IOError` with message `e`).
-/

/-- The hardcoded price dictionary `STOCK_PRICES` (src/main.py lines 7-14). -/
def STOCK_PRICES : List (String × ℚ) :=
  [("NVDA", 875.50),
   ("JNJ", 158.30),
   ("V", 270.15),
   ("COST", 780.00),
   ("ASML", 995.88),
   ("RY", 105.45)]

/-- One holding dictionary as appended by `get_user_portfolio`
(src/main.py lines 56-62). -/
structure Holding where
  ticker : String
  quantity : ℤ
  price : ℚ
  value : ℚ
  weight : ℚ
deriving Repr, DecidableEq

/-- Outcome of validating one quantity input line
(src/main.py lines 38-50): empty input, `int()` raising `ValueError`,
a non-positive integer, or a valid positive integer. -/
inductive QuantityResult where
  | empty : QuantityResult
  | notANumber : QuantityResult
  | notPositive : ℤ → QuantityResult
  | valid : ℤ → QuantityResult
deriving Repr, DecidableEq

/-- Python `str.strip()`: remove leading and trailing whitespace. -/
def pyStrip (s : String) : String :=
  String.mk (((s.data.dropWhile Char.isWhitespace).reverse.dropWhile Char.isWhitespace).reverse)

/-- Python `str.upper()` (ASCII case mapping). -/
def pyUpper (s : String) : String := String.mk (s.data.map Char.toUpper)

/-- Python `str.lower()` (ASCII case mapping). -/
def pyLower (s : String) : String := String.mk (s.data.map Char.toLower)

/-- Value of a list of decimal digit characters, most significant first. -/
def digitsVal (ds : List Char) : ℕ :=
  ds.foldl (fun a c => a * 10 + (c.toNat - 48)) 0

/-- A nonempty all-digit string parsed to a natural number; `none` otherwise. -/
def pyParseDigits : List Char → Option ℕ
  | [] => none
  | ds => if ds.all Char.isDigit then some (digitsVal ds) else none

/-- Model of Python `int(s)` on an already-stripped string: an optional
sign followed by decimal digits (underscore digit grouping is not used by
any input considered here and is not modelled).  `none` models `ValueError`. -/
def pyParseInt (s : String) : Option ℤ :=
  match s.toList with
  | '+' :: ds => (pyParseDigits ds).map Int.ofNat
  | '-' :: ds => (pyParseDigits ds).map fun n => -(n : ℤ)
  | ds => (pyParseDigits ds).map Int.ofNat

/-- The quantity validation of src/main.py lines 40-48: strip the raw line,
reject empty input, parse with `int()`, reject non-positive values. -/
def parse_quantity (raw : String) : QuantityResult :=
  let s := pyStrip raw
  if s = "" then QuantityResult.empty
  else
    match pyParseInt s with
    | none => QuantityResult.notANumber
    | some q => if q ≤ 0 then QuantityResult.notPositive q else QuantityResult.valid q

/-- Collector state (spec §4.4 state machine): awaiting a ticker line,
awaiting a quantity line for a validated ticker and its price, or done. -/
inductive CState where
  | awaitingTicker : CState
  | awaitingQuantity : String → ℚ → CState
  | done : CState
deriving Repr, DecidableEq

/-- Confirmation line echoed after a successful append
(src/main.py line 63); the numeric `:.2f` / `:,.2f` formatting is elided. -/
def confirmation (q : ℤ) (t : String) (pr val : ℚ) : String :=
  "-> Added " ++ toString q ++ " shares of " ++ t ++ " at $" ++ toString pr
    ++ " each. Current value: $" ++ toString val

/-- One reaction of `get_user_portfolio` to one console input line
(src/main.py lines 27-63): the next state, the holding appended (if any),
and the message printed (if any).  Ticker lines are stripped and
upper-cased; `DONE` ends the loop; unknown tickers re-prompt; quantity
lines go through `parse_quantity` and a valid quantity appends a holding
with `value = quantity * price` and `weight = 0`. -/
def collectorStep : CState → String → CState × Option Holding × Option String
  | CState.done, _ => (CState.done, none, none)
  | CState.awaitingTicker, line =>
    let ticker := pyUpper (pyStrip line)
    if ticker = "DONE" then (CState.done, none, none)
    else
      match STOCK_PRICES.lookup ticker with
      | none => (CState.awaitingTicker, none,
          some ("Error: Stock " ++ ticker ++
            " not found in the price list. Please try one of the available options."))
      | some price => (CState.awaitingQuantity ticker price, none, none)
  | CState.awaitingQuantity ticker price, line =>
    match parse_quantity line with
    | QuantityResult.empty =>
        (CState.awaitingQuantity ticker price, none, some "Quantity cannot be empty.")
    | QuantityResult.notANumber =>
        (CState.awaitingQuantity ticker price, none,
          some "Invalid input. Please enter a whole number for quantity.")
    | QuantityResult.notPositive _ =>
        (CState.awaitingQuantity ticker price, none,
          some "Quantity must be a positive whole number.")
    | QuantityResult.valid q =>
        let value := (q : ℚ) * price
        (CState.awaitingTicker,
         some { ticker := ticker, quantity := q, price := price,
                value := value, weight := 0 },
         some (confirmation q ticker price value))

/-- Run the collector from a state over the remaining console lines,
accumulating appended holdings.  Reaching `done` returns the portfolio and
the unconsumed lines; exhausting the input in a prompting state models an
uncaught `EOFError` (`none`). -/
def runCollector : CState → List String → List Holding → Option (List Holding × List String)
  | CState.done, rest, acc => some (acc, rest)
  | CState.awaitingTicker, [], _ => none
  | CState.awaitingQuantity _ _, [], _ => none
  | CState.awaitingTicker, line :: rest, acc =>
    let r := collectorStep CState.awaitingTicker line
    runCollector r.1 rest (acc ++ r.2.1.toList)
  | CState.awaitingQuantity t pr, line :: rest, acc =>
    let r := collectorStep (CState.awaitingQuantity t pr) line
    runCollector r.1 rest (acc ++ r.2.1.toList)

/-- `get_user_portfolio` (src/main.py lines 16-65) over the console input
lines: the returned portfolio together with the input lines left unread. -/
def get_user_portfolio (inputs : List String) : Option (List Holding × List String) :=
  runCollector CState.awaitingTicker inputs []

/-- `calculate_portfolio_value` (src/main.py lines 67-73):
`sum(holding['value'] for holding in portfolio)`, a left fold from 0. -/
def calculate_portfolio_value (portfolio : List Holding) : ℚ :=
  portfolio.foldl (fun acc h => acc + h.value) 0

/-- `calculate_portfolio_weights` (src/main.py lines 75-87): if the total
is 0 return without touching the portfolio, otherwise set each holding's
weight to `(value / total) * 100`.  The Python in-place mutation is
modelled by returning the updated list. -/
def calculate_portfolio_weights (portfolio : List Holding) (total_value : ℚ) : List Holding :=
  if total_value = 0 then portfolio
  else portfolio.map fun h => { h with weight := h.value / total_value * 100 }

/-- `save_results_to_file` (src/main.py lines 89-113): the attempted file
write is modelled by `writeOutcome`; an `IOError` is caught and turned
into the labelled error message, success into the success message.
The returned string is the line the function prints. -/
def save_results_to_file (portfolio : List Holding) (total_value : ℚ)
    (writeOutcome : Except String Unit) : String :=
  match writeOutcome with
  | Except.ok _ => "[SUCCESS] Report successfully saved to portfolio_summary.txt"
  | Except.error e => "[ERROR] An error occurred while saving the file: " ++ e

/-- Observable outcome of one program run: an early clean exit
(`sys.exit()` with no argument, i.e. success status, before any valuation,
weighting, report or save prompt), or a completed run carrying the
weighted portfolio, the total value and the save-step message. -/
inductive MainResult where
  | earlyExit : MainResult
  | finished : List Holding → ℚ → String → MainResult
deriving Repr, DecidableEq

/-- `main` (src/main.py lines 115-153): collect the portfolio; if it is
empty exit cleanly at once; otherwise compute total value and weights,
read the save answer from the next input line and either save (with the
modelled write outcome) or skip.  `none` models a crash from exhausted
input (`EOFError`).  Named `py_main` because Lean reserves `main`. -/
def py_main (inputs : List String) (writeOutcome : Except String Unit) : Option MainResult :=
  match get_user_portfolio inputs with
  | none => none
  | some (user_portfolio, rest) =>
    if user_portfolio = [] then some MainResult.earlyExit
    else
      let total_value := calculate_portfolio_value user_portfolio
      let weighted := calculate_portfolio_weights user_portfolio total_value
      match rest with
      | [] => none
      | save_option :: _ =>
        if pyLower (pyStrip save_option) = "y" then
          some (MainResult.finished weighted total_value
            (save_results_to_file weighted total_value writeOutcome))
        else
          some (MainResult.finished weighted total_value "File saving skipped.")

/-! ### Helper lemmas -/

/-- Every price that `STOCK_PRICES` lookup can return is strictly positive. -/
lemma lookup_price_pos (t : String) (pr : ℚ) (h : STOCK_PRICES.lookup t = some pr) :
    0 < pr := by
  simp only [STOCK_PRICES, List.lookup] at h
  repeat' split at h
  all_goals simp_all
  all_goals norm_num [← h]

/-- The sentinel is not a key of the price table. -/
lemma lookup_done_eq_none : STOCK_PRICES.lookup "DONE" = none := rfl

/-- A quantity line classified `valid q` has `0 < q`. -/
lemma parse_quantity_valid_pos (s : String) (q : ℤ)
    (h : parse_quantity s = QuantityResult.valid q) : 0 < q := by
  simp only [parse_quantity] at h
  split at h
  · exact absurd h (by simp)
  · cases hp : pyParseInt (pyStrip s) with
    | none => rw [hp] at h; exact absurd h (by simp)
    | some q' =>
      rw [hp] at h
      dsimp only at h
      by_cases hq : q' ≤ 0
      · rw [if_pos hq] at h; exact absurd h (by simp)
      · rw [if_neg hq] at h
        simp only [QuantityResult.valid.injEq] at h
        omega

/-- Left fold of `+ value` from an arbitrary accumulator. -/
lemma foldl_add_value (p : List Holding) :
    ∀ a : ℚ, p.foldl (fun acc h => acc + h.value) a = a + (p.map Holding.value).sum := by
  induction p with
  | nil => intro a; simp
  | cons h t ih => intro a; simp [ih, add_assoc]

/-- The embedded `sum(...)` fold equals the sum of the value fields. -/
lemma value_eq_sum (p : List Holding) :
    calculate_portfolio_value p = (p.map Holding.value).sum := by
  simpa using foldl_add_value p 0

/-- Summing `value / t * 100` over a list factors through the sum of values. -/
lemma sum_map_weight (l : List Holding) (t : ℚ) :
    (l.map fun h => h.value / t * 100).sum = (l.map Holding.value).sum / t * 100 := by
  induction l with
  | nil => simp
  | cons h tl ih =>
    simp only [List.map_cons, List.sum_cons, ih]
    ring

/-! ### Claim theorems -/

/-- C4: `calculate_portfolio_value` returns the sum of the value fields of
all holdings, and returns 0 for the empty portfolio. -/
theorem portfolio_value_is_sum (p : List Holding) :
    calculate_portfolio_value p = (p.map Holding.value).sum ∧
    calculate_portfolio_value [] = 0 :=
  ⟨value_eq_sum p, rfl⟩

/-- C3: with a total of exactly 0 the weight pass performs no mutation at
all (the portfolio, including every weight field, is returned unchanged);
with a nonzero total each holding's weight is set to
`(value / total) * 100`. -/
theorem weights_zero_guard_and_formula (p : List Holding) (t : ℚ) :
    (t = 0 → calculate_portfolio_weights p t = p) ∧
    (t ≠ 0 → calculate_portfolio_weights p t =
      p.map fun h => { h with weight := h.value / t * 100 }) := by
  constructor <;> intro h <;> simp [calculate_portfolio_weights, h]

/-- Witness for C3 at a concrete one-holding portfolio, once with total 0
and once with total 1751. -/
theorem weights_zero_guard_and_formula_witness :
    calculate_portfolio_weights [Holding.mk "NVDA" 2 875.50 1751 0] 0 =
      [Holding.mk "NVDA" 2 875.50 1751 0] ∧
    calculate_portfolio_weights [Holding.mk "NVDA" 2 875.50 1751 0] 1751 =
      List.map (fun h => { h with weight := h.value / 1751 * 100 })
        [Holding.mk "NVDA" 2 875.50 1751 0] :=
  ⟨(weights_zero_guard_and_formula [Holding.mk "NVDA" 2 875.50 1751 0] 0).1 rfl,
   (weights_zero_guard_and_formula [Holding.mk "NVDA" 2 875.50 1751 0] 1751).2 (by norm_num)⟩

/-- C2: for a non-empty portfolio whose computed total value is nonzero,
after the weight pass runs (with that total, as `py_main` does) the
weights sum to exactly 100, hence in particular to 100.0 within any
display rounding tolerance. -/
theorem weights_sum_to_100 (p : List Holding) (hne : p ≠ [])
    (h0 : calculate_portfolio_value p ≠ 0) :
    ((calculate_portfolio_weights p (calculate_portfolio_value p)).map Holding.weight).sum
      = 100 := by
  rw [calculate_portfolio_weights, if_neg h0, List.map_map]
  have hcomp : (Holding.weight ∘ fun h : Holding =>
      { h with weight := h.value / calculate_portfolio_value p * 100 })
      = fun h : Holding => h.value / calculate_portfolio_value p * 100 := rfl
  rw [hcomp, sum_map_weight, ← value_eq_sum, div_self h0, one_mul]

/-- Witness for C2 at a concrete two-holding portfolio. -/
theorem weights_sum_to_100_witness :
    ((calculate_portfolio_weights
        [Holding.mk "NVDA" 2 875.50 1751 0, Holding.mk "V" 10 270.15 2701.50 0]
        (calculate_portfolio_value
          [Holding.mk "NVDA" 2 875.50 1751 0, Holding.mk "V" 10 270.15 2701.50 0])).map
      Holding.weight).sum = 100 :=
  weights_sum_to_100
    [Holding.mk "NVDA" 2 875.50 1751 0, Holding.mk "V" 10 270.15 2701.50 0]
    (by simp) (by norm_num [calculate_portfolio_value])

/-- C1: entering any ticker whose normalized form is in the price table,
followed by any quantity line that validates to a positive integer `q`,
appends exactly one holding whose value field is exactly `q × price`. -/
theorem holding_value_exact (T s : String) (p : ℚ) (q : ℤ)
    (hT : STOCK_PRICES.lookup (pyUpper (pyStrip T)) = some p)
    (hs : parse_quantity s = QuantityResult.valid q) :
    0 < q ∧
    get_user_portfolio [T, s, "done"] =
      some ([{ ticker := pyUpper (pyStrip T), quantity := q, price := p,
               value := (q : ℚ) * p, weight := 0 }], []) := by
  have hq := parse_quantity_valid_pos s q hs
  refine ⟨hq, ?_⟩
  have hne : pyUpper (pyStrip T) ≠ "DONE" := by
    intro hEq
    rw [hEq, lookup_done_eq_none] at hT
    exact Option.noConfusion hT
  have hdone : pyUpper (pyStrip "done") = "DONE" := rfl
  simp [get_user_portfolio, runCollector, collectorStep, hT, hs, if_neg hne, hdone]

unseal Rat.mul Rat.add Rat.ofScientific in
/-- Witness for C1: 2 shares of NVDA yield value `2 × 875.50`. -/
theorem holding_value_exact_witness :
    0 < (2 : ℤ) ∧
    get_user_portfolio ["NVDA", "2", "done"] =
      some ([{ ticker := pyUpper (pyStrip "NVDA"), quantity := 2, price := 875.50,
               value := ((2 : ℤ) : ℚ) * 875.50, weight := 0 }], []) :=
  holding_value_exact "NVDA" "2" 875.50 2 (by decide) (by decide)

unseal Rat.mul Rat.add Rat.ofScientific in
/-- C5: the input sequence NVDA×2, V×10 produces holdings of values 1751
and 2701.50, a total of 4452.50, and weights that round at two decimals
to 39.33 and 60.67 (each within half a unit in the last displayed place). -/
theorem example_sequence_total_and_weights :
    get_user_portfolio ["NVDA", "2", "V", "10", "done"] =
      some ([Holding.mk "NVDA" 2 875.50 1751 0, Holding.mk "V" 10 270.15 2701.50 0], []) ∧
    calculate_portfolio_value
      [Holding.mk "NVDA" 2 875.50 1751 0, Holding.mk "V" 10 270.15 2701.50 0] = 4452.50 ∧
    ∃ wN wV : ℚ,
      (calculate_portfolio_weights
          [Holding.mk "NVDA" 2 875.50 1751 0, Holding.mk "V" 10 270.15 2701.50 0]
          4452.50).map Holding.weight = [wN, wV] ∧
      |wN - 39.33| ≤ 1/200 ∧ |wV - 60.67| ≤ 1/200 := by
  refine ⟨by decide, by decide, 70040/1781, 108060/1781, ?_, ?_, ?_⟩
  · norm_num [calculate_portfolio_weights]
  · rw [abs_le]; constructor <;> norm_num
  · rw [abs_le]; constructor <;> norm_num

/-- C6: if the first ticker line normalizes to the sentinel `DONE` (any
letter case), the collector returns the empty portfolio without reading
further lines, and the whole program ends in the clean early exit,
performing no valuation, weighting, report or save prompt. -/
theorem done_first_empty_and_early_exit (s : String) (rest : List String)
    (w : Except String Unit) (h : pyUpper (pyStrip s) = "DONE") :
    get_user_portfolio (s :: rest) = some ([], rest) ∧
    py_main (s :: rest) w = some MainResult.earlyExit := by
  have h1 : get_user_portfolio (s :: rest) = some ([], rest) := by
    simp [get_user_portfolio, runCollector, collectorStep, h]
  exact ⟨h1, by simp [py_main, h1]⟩

/-- Witness for C6 with the mixed-case first input `"DoNe"`. -/
theorem done_first_empty_and_early_exit_witness :
    get_user_portfolio ["DoNe"] = some ([], []) ∧
    py_main ["DoNe"] (Except.ok ()) = some MainResult.earlyExit :=
  done_first_empty_and_early_exit "DoNe" [] (Except.ok ()) (by decide)

/-- C7: a ticker line that is neither the sentinel nor a table key leaves
the collector in the ticker-prompting state with no holding appended and
the not-found message printed, and the whole collector run is the same as
if that line had not been entered. -/
theorem invalid_ticker_never_appends (line : String)
    (hd : pyUpper (pyStrip line) ≠ "DONE")
    (hl : STOCK_PRICES.lookup (pyUpper (pyStrip line)) = none) :
    collectorStep CState.awaitingTicker line =
      (CState.awaitingTicker, none,
       some ("Error: Stock " ++ pyUpper (pyStrip line) ++
         " not found in the price list. Please try one of the available options.")) ∧
    ∀ rest acc, runCollector CState.awaitingTicker (line :: rest) acc =
      runCollector CState.awaitingTicker rest acc := by
  have hstep : collectorStep CState.awaitingTicker line =
      (CState.awaitingTicker, none,
       some ("Error: Stock " ++ pyUpper (pyStrip line) ++
         " not found in the price list. Please try one of the available options.")) := by
    simp [collectorStep, if_neg hd, hl]
  exact ⟨hstep, fun rest acc => by simp [runCollector, hstep]⟩

/-- Witness for C7 with the unknown ticker `"ZZZ"`. -/
theorem invalid_ticker_never_appends_witness :
    collectorStep CState.awaitingTicker "ZZZ" =
      (CState.awaitingTicker, none,
       some ("Error: Stock " ++ pyUpper (pyStrip "ZZZ") ++
         " not found in the price list. Please try one of the available options.")) ∧
    runCollector CState.awaitingTicker ["ZZZ"] [] =
      runCollector CState.awaitingTicker [] [] :=
  ⟨(invalid_ticker_never_appends "ZZZ" (by decide) (by decide)).1,
   (invalid_ticker_never_appends "ZZZ" (by decide) (by decide)).2 [] []⟩

/-- C8: in the quantity loop, an empty, non-numeric or non-positive line
appends nothing, keeps the collector in the same quantity-prompting state,
and each of the three violation types prints its own message; the three
messages are pairwise distinct. -/
theorem invalid_quantity_distinct_messages (t : String) (pr : ℚ) (line : String) :
    (parse_quantity line = QuantityResult.empty →
      collectorStep (CState.awaitingQuantity t pr) line =
        (CState.awaitingQuantity t pr, none, some "Quantity cannot be empty.")) ∧
    (parse_quantity line = QuantityResult.notANumber →
      collectorStep (CState.awaitingQuantity t pr) line =
        (CState.awaitingQuantity t pr, none,
         some "Invalid input. Please enter a whole number for quantity.")) ∧
    (∀ q : ℤ, parse_quantity line = QuantityResult.notPositive q →
      collectorStep (CState.awaitingQuantity t pr) line =
        (CState.awaitingQuantity t pr, none,
         some "Quantity must be a positive whole number.")) ∧
    ("Quantity cannot be empty." ≠ "Invalid input. Please enter a whole number for quantity." ∧
     "Quantity cannot be empty." ≠ "Quantity must be a positive whole number." ∧
     "Invalid input. Please enter a whole number for quantity." ≠
       "Quantity must be a positive whole number.") := by
  refine ⟨fun h => ?_, fun h => ?_, fun q h => ?_, by decide, by decide, by decide⟩
  all_goals simp [collectorStep, h]

/-- Witness for C8 at the three concrete violating lines `""`, `"abc"`
and `"-3"`. -/
theorem invalid_quantity_distinct_messages_witness :
    collectorStep (CState.awaitingQuantity "NVDA" 875.50) "" =
      (CState.awaitingQuantity "NVDA" 875.50, none, some "Quantity cannot be empty.") ∧
    collectorStep (CState.awaitingQuantity "NVDA" 875.50) "abc" =
      (CState.awaitingQuantity "NVDA" 875.50, none,
       some "Invalid input. Please enter a whole number for quantity.") ∧
    collectorStep (CState.awaitingQuantity "NVDA" 875.50) "-3" =
      (CState.awaitingQuantity "NVDA" 875.50, none,
       some "Quantity must be a positive whole number.") :=
  ⟨(invalid_quantity_distinct_messages "NVDA" 875.50 "").1 (by decide),
   (invalid_quantity_distinct_messages "NVDA" 875.50 "abc").2.1 (by decide),
   (invalid_quantity_distinct_messages "NVDA" 875.50 "-3").2.2.1 (-3) (by decide)⟩

/-- Collector invariant: starting from a state whose pending price (if
any) is positive, with an accumulator of positive-value holdings, every
holding in a successfully returned portfolio has positive value. -/
lemma runCollector_values_pos :
    ∀ (inputs : List String) (s : CState) (acc p : List Holding) (rest : List String),
      (∀ t pr, s = CState.awaitingQuantity t pr → 0 < pr) →
      (∀ h ∈ acc, 0 < h.value) →
      runCollector s inputs acc = some (p, rest) →
      ∀ h ∈ p, 0 < h.value := by
  intro inputs
  induction inputs with
  | nil =>
    intro s acc p rest hs hacc hrun
    cases s with
    | done =>
      simp only [runCollector, Option.some.injEq, Prod.mk.injEq] at hrun
      obtain ⟨h1, _⟩ := hrun
      subst h1
      exact hacc
    | awaitingTicker => simp [runCollector] at hrun
    | awaitingQuantity t pr => simp [runCollector] at hrun
  | cons line rest' ih =>
    intro s acc p rest hs hacc hrun
    cases s with
    | done =>
      simp only [runCollector, Option.some.injEq, Prod.mk.injEq] at hrun
      obtain ⟨h1, _⟩ := hrun
      subst h1
      exact hacc
    | awaitingTicker =>
      simp only [runCollector] at hrun
      by_cases hd : pyUpper (pyStrip line) = "DONE"
      · have hstep : collectorStep CState.awaitingTicker line = (CState.done, none, none) := by
          simp [collectorStep, hd]
        rw [hstep] at hrun
        simp only [Option.toList_none, List.append_nil] at hrun
        exact ih CState.done acc p rest (by intro t pr hEq; cases hEq) hacc hrun
      · cases hl : STOCK_PRICES.lookup (pyUpper (pyStrip line)) with
        | none =>
          have hstep : collectorStep CState.awaitingTicker line =
              (CState.awaitingTicker, none,
               some ("Error: Stock " ++ pyUpper (pyStrip line) ++
                 " not found in the price list. Please try one of the available options.")) := by
            simp [collectorStep, hd, hl]
          rw [hstep] at hrun
          simp only [Option.toList_none, List.append_nil] at hrun
          exact ih CState.awaitingTicker acc p rest (by intro t pr hEq; cases hEq) hacc hrun
        | some price =>
          have hstep : collectorStep CState.awaitingTicker line =
              (CState.awaitingQuantity (pyUpper (pyStrip line)) price, none, none) := by
            simp [collectorStep, hd, hl]
          rw [hstep] at hrun
          simp only [Option.toList_none, List.append_nil] at hrun
          refine ih _ acc p rest ?_ hacc hrun
          intro t pr hEq
          cases hEq
          exact lookup_price_pos _ _ hl
    | awaitingQuantity t pr =>
      simp only [runCollector] at hrun
      cases hq : parse_quantity line with
      | empty =>
        have hstep : collectorStep (CState.awaitingQuantity t pr) line =
            (CState.awaitingQuantity t pr, none, some "Quantity cannot be empty.") := by
          simp [collectorStep, hq]
        rw [hstep] at hrun
        simp only [Option.toList_none, List.append_nil] at hrun
        exact ih _ acc p rest hs hacc hrun
      | notANumber =>
        have hstep : collectorStep (CState.awaitingQuantity t pr) line =
            (CState.awaitingQuantity t pr, none,
             some "Invalid input. Please enter a whole number for quantity.") := by
          simp [collectorStep, hq]
        rw [hstep] at hrun
        simp only [Option.toList_none, List.append_nil] at hrun
        exact ih _ acc p rest hs hacc hrun
      | notPositive q =>
        have hstep : collectorStep (CState.awaitingQuantity t pr) line =
            (CState.awaitingQuantity t pr, none,
             some "Quantity must be a positive whole number.") := by
          simp [collectorStep, hq]
        rw [hstep] at hrun
        simp only [Option.toList_none, List.append_nil] at hrun
        exact ih _ acc p rest hs hacc hrun
      | valid q =>
        have hstep : collectorStep (CState.awaitingQuantity t pr) line =
            (CState.awaitingTicker,
             some { ticker := t, quantity := q, price := pr,
                    value := (q : ℚ) * pr, weight := 0 },
             some (confirmation q t pr ((q : ℚ) * pr))) := by
          simp [collectorStep, hq]
        rw [hstep] at hrun
        refine ih _ _ p rest (by intro t' pr' hEq; cases hEq) ?_ hrun
        intro h hh
        rcases List.mem_append.mp hh with hmem | hmem
        · exact hacc h hmem
        · have hqpos := parse_quantity_valid_pos line q hq
          have hppos : 0 < pr := hs t pr rfl
          simp only [Option.toList_some, List.mem_singleton] at hmem
          subst hmem
          exact mul_pos (by exact_mod_cast hqpos) hppos

/-- A non-empty portfolio of positive-value holdings has positive total. -/
lemma sum_values_pos (p : List Holding) (hne : p ≠ []) (hpos : ∀ h ∈ p, 0 < h.value) :
    0 < calculate_portfolio_value p := by
  rw [value_eq_sum]
  apply List.sum_pos
  · intro x hx
    obtain ⟨h, hh, rfl⟩ := List.mem_map.mp hx
    exact hpos h hh
  · simpa using hne

/-- C10: any non-empty portfolio the collector returns has strictly
positive total value, so the zero-total guard of the weight pass is not
taken and every holding receives the computed weight. -/
theorem collector_total_positive (inputs : List String) (p : List Holding) (rest : List String)
    (hrun : get_user_portfolio inputs = some (p, rest)) (hne : p ≠ []) :
    0 < calculate_portfolio_value p ∧
    calculate_portfolio_weights p (calculate_portfolio_value p) =
      p.map fun h => { h with weight := h.value / calculate_portfolio_value p * 100 } := by
  have hpos : ∀ h ∈ p, 0 < h.value :=
    runCollector_values_pos inputs CState.awaitingTicker [] p rest
      (by intro t pr hEq; cases hEq) (by intro h hh; cases hh) hrun
  have htot := sum_values_pos p hne hpos
  exact ⟨htot, by rw [calculate_portfolio_weights, if_neg (ne_of_gt htot)]⟩

unseal Rat.mul Rat.add Rat.ofScientific in
/-- Witness for C10 on the collector run for NVDA×2. -/
theorem collector_total_positive_witness :
    0 < calculate_portfolio_value [Holding.mk "NVDA" 2 875.50 1751 0] ∧
    calculate_portfolio_weights [Holding.mk "NVDA" 2 875.50 1751 0]
        (calculate_portfolio_value [Holding.mk "NVDA" 2 875.50 1751 0]) =
      List.map
        (fun h => { h with
          weight := h.value / calculate_portfolio_value [Holding.mk "NVDA" 2 875.50 1751 0] * 100 })
        [Holding.mk "NVDA" 2 875.50 1751 0] :=
  collector_total_positive ["NVDA", "2", "done"] [Holding.mk "NVDA" 2 875.50 1751 0] []
    (by decide) (by simp)

/-- C9: a failing write during the optional save yields the labelled
error message, and whenever a run of the program terminates normally with
some write outcome, it terminates normally with every write outcome (the
failure is caught; the process neither crashes nor exits abnormally). -/
theorem save_failure_caught (p : List Holding) (total : ℚ) (e : String)
    (inputs : List String) (w : Except String Unit) (r : MainResult)
    (h : py_main inputs w = some r) :
    save_results_to_file p total (Except.error e) =
      "[ERROR] An error occurred while saving the file: " ++ e ∧
    ∀ w' : Except String Unit, (py_main inputs w').isSome = true := by
  refine ⟨rfl, fun w' => ?_⟩
  unfold py_main at h ⊢
  cases hg : get_user_portfolio inputs with
  | none => rw [hg] at h; simp at h
  | some pair =>
    obtain ⟨p', rest⟩ := pair
    rw [hg] at h
    dsimp only at h ⊢
    by_cases hp : p' = []
    · simp [hp]
    · rw [if_neg hp] at h ⊢
      cases rest with
      | nil => simp at h
      | cons a as =>
        by_cases hy : pyLower (pyStrip a) = "y" <;> simp [hy]

/-- Witness for C9 with a concrete failing write. -/
theorem save_failure_caught_witness :
    save_results_to_file [] 0 (Except.error "disk full") =
      "[ERROR] An error occurred while saving the file: " ++ "disk full" ∧
    (py_main ["done"] (Except.error "disk full")).isSome = true := by
  have h := save_failure_caught [] 0 "disk full" ["done"] (Except.ok ())
    MainResult.earlyExit (by decide)
  exact ⟨h.1, h.2 (Except.error "disk full")⟩
